import Mathlib

/-!
Shallow embedding of the weather-enrichment pipeline of the
windborne-constellation-tracker repository.

The embedded code is `fetchWeatherData` and `fetchWeatherForPositions` from
the repository's weather service (the full variant with the in-memory TTL
cache, deduplication, 429 handling and per-chunk callback).  JavaScript
numbers are modelled as rationals, `Date.now()` timestamps as naturals, the
`Map<string, _>` stores as insertion-ordered association lists with JS `Map`
get/set semantics, and the key string `"lat.toFixed(2),lon.toFixed(2)"` as
the pair of coordinates rounded to centi-degrees (ties toward positive
infinity, as `toFixed` specifies).  The network is an oracle assigning each
request its upstream response; `Date.now()` is held fixed across one batch
run (a run is fast relative to the 5-minute TTL), while single-call claims
pass explicit distinct times.  Concurrency inside a chunk is modelled by a
sequential fold: the fetches of one chunk touch pairwise distinct cache keys
(the input to the chunk loop is deduplicated), so the fold agrees with the
concurrent fan-out/fan-in execution.
-/

namespace WindBorne

/-- Runtime JavaScript values that a parsed JSON weather field can hold
(`data.current.<field>` after `response.json()`).  `undef` is the value of a
missing object property. -/
inductive JSVal where
  | num (q : ℚ)
  | str (s : String)
  | jbool (b : Bool)
  | jnull
  | undef
deriving DecidableEq, Repr

/-- JavaScript truthiness of a JSON-originated value (`NaN` cannot occur in
parsed JSON, so `num` covers exactly the rationals). -/
def JSVal.truthy : JSVal → Bool
  | .num q => decide (q ≠ 0)
  | .str s => decide (s ≠ "")
  | .jbool b => b
  | .jnull => false
  | .undef => false

/-- The JS expression `v || 0` used on every weather field of the payload. -/
def orZero (v : JSVal) : JSVal := if v.truthy then v else .num 0

/-- A geographic position `{latitude, longitude}`. -/
structure Position where
  latitude : ℚ
  longitude : ℚ
deriving DecidableEq, Repr

/-- `x.toFixed(2)` as the rounded centi-degree integer: nearest multiple of
1/100, ties toward positive infinity, i.e. `⌊100 * q + 1/2⌋`.  For
`q = num / den` (with `den > 0` and the fraction reduced) this floor equals
the floor division `(200 * num + den) fdiv (2 * den)`, written out directly
on the representation so that the kernel can evaluate it. -/
def toFixed2 (q : ℚ) : Int := Int.fdiv (200 * q.num + q.den) (2 * q.den)

/-- The cache / result-map key built from a coordinate pair, modelling the
string `lat.toFixed(2) ++ "," ++ lon.toFixed(2)`. -/
def posKeyC (latitude longitude : ℚ) : Int × Int := (toFixed2 latitude, toFixed2 longitude)

/-- The key of a position. -/
def posKey (p : Position) : Int × Int := posKeyC p.latitude p.longitude

/-- The `WeatherData` record built by the weather service.  The latitude and
longitude come from the call arguments; the five weather fields are the raw
payload fields filtered through `|| 0`, so at runtime they are arbitrary JS
values; `timestamp` is `Date.now()` at parse time. -/
structure WeatherData where
  latitude : ℚ
  longitude : ℚ
  temperature : JSVal
  windSpeed : JSVal
  windDirection : JSVal
  humidity : JSVal
  pressure : JSVal
  timestamp : Nat
deriving DecidableEq, Repr

/-- One entry of the module-level `weatherCache`. -/
structure CacheEntry where
  data : WeatherData
  expires : Nat
deriving DecidableEq, Repr

abbrev Key := Int × Int

abbrev Cache := List (Key × CacheEntry)

/-- `Map.get`: the value stored at a key, if any. -/
def mapGet {α β : Type} [DecidableEq α] : List (α × β) → α → Option β
  | [], _ => none
  | e :: es, k => if e.1 = k then some e.2 else mapGet es k

/-- `Map.set`: update the value in place if the key is present, otherwise
append the new entry (JS `Map` keeps insertion order on update). -/
def mapSet {α β : Type} [DecidableEq α] : List (α × β) → α → β → List (α × β)
  | [], k, v => [(k, v)]
  | e :: es, k, v => if e.1 = k then (k, v) :: es else e :: mapSet es k v

/-- `CACHE_TTL = 5 * 60 * 1000` milliseconds. -/
def CACHE_TTL : Nat := 5 * 60 * 1000

/-- The `current` object of a successful upstream JSON body; each field is a
raw JS value (a missing field is `undef`). -/
structure CurrentPayload where
  temperature_2m : JSVal
  wind_speed_10m : JSVal
  wind_direction_10m : JSVal
  relative_humidity_2m : JSVal
  surface_pressure : JSVal
deriving DecidableEq, Repr

/-- What the upstream does for one request: abort/throw (`timeout`, covering
the 3-second `AbortController` timeout and network failures), reply with a
non-ok HTTP status (`status`, 429 being the rate-limit status), or reply ok
with a JSON body whose `current` object is present or absent. -/
inductive UpstreamResponse where
  | timeout
  | status (code : Nat)
  | success (current : Option CurrentPayload)
deriving DecidableEq, Repr

/-- The object literal built from a successful payload: coordinates from the
arguments, weather fields through `|| 0`, `timestamp: Date.now()`. -/
def parseWeather (current : CurrentPayload) (now : Nat) (latitude longitude : ℚ) :
    WeatherData :=
  { latitude := latitude
    longitude := longitude
    temperature := orZero current.temperature_2m
    windSpeed := orZero current.wind_speed_10m
    windDirection := orZero current.wind_direction_10m
    humidity := orZero current.relative_humidity_2m
    pressure := orZero current.surface_pressure
    timestamp := now }

/-- Observable outcome of one `fetchWeatherData` call: the returned value
(`null` = `none`), the cache afterwards, and whether an upstream request was
issued. -/
structure FetchResult where
  result : Option WeatherData
  cache : Cache
  requested : Bool
deriving DecidableEq, Repr

/-- The body of `fetchWeatherData` past the cache check: issue the request
and handle the response.  `status 429` logs a rate-limit warning and returns
`null`; any other non-ok status returns `null`; a body without `current`
returns `null`; in all three cases (and on timeout) the cache is untouched.
On success the parsed observation is stored under the position key with
expiry `now + CACHE_TTL`. -/
def fetchUpstream (net : UpstreamResponse) (now : Nat) (cache : Cache)
    (latitude longitude : ℚ) : FetchResult :=
  match net with
  | .timeout => ⟨none, cache, true⟩
  | .status code =>
      -- `response.status === 429` (warn) and `!response.ok` both return null
      if code = 429 then ⟨none, cache, true⟩ else ⟨none, cache, true⟩
  | .success none => ⟨none, cache, true⟩
  | .success (some current) =>
      let weather := parseWeather current now latitude longitude
      ⟨some weather,
       mapSet cache (posKeyC latitude longitude) ⟨weather, now + CACHE_TTL⟩,
       true⟩

/-- `fetchWeatherData(latitude, longitude)`: compute the cache key; if a
cached entry with `expires > Date.now()` exists, return it without any
network traffic; otherwise fall through to the upstream request. -/
def fetchWeatherData (net : UpstreamResponse) (now : Nat) (cache : Cache)
    (latitude longitude : ℚ) : FetchResult :=
  match mapGet cache (posKeyC latitude longitude) with
  | some cached =>
      if now < cached.expires then ⟨some cached.data, cache, false⟩
      else fetchUpstream net now cache latitude longitude
  | none => fetchUpstream net now cache latitude longitude

/-- Modelled from the spec: the `RateLimitState` record of section 4.3.  The
Rate-Limit Tracker (`recordResponse` / `currentState`, surfaced to the UI as
`getRateLimitInfo`) is referenced by `App.tsx` but its implementation is not
among the available source files, so it is modelled from the specification's
words. -/
structure RateLimitState where
  isLimited : Bool
  retryAfterSeconds : Option Nat
  resetAt : Option Nat
deriving DecidableEq, Repr

/-- Modelled from the spec: the response metadata signals "indicate the
quota is exhausted" when a retry-after duration is present or a
remaining-quota counter reads zero; either signal may be absent. -/
def quotaExhausted (retryAfterSeconds remainingQuota : Option Nat) : Bool :=
  retryAfterSeconds.isSome || remainingQuota == some 0

/-- Modelled from the spec: `recordResponse(headers)` — on an exhausted
quota the tracker transitions to `isLimited = true` with
`resetAt = now + retryAfterSeconds`; otherwise back to `isLimited = false`.
State is overwritten on every observation (last writer wins). -/
def recordResponse (now : Nat) (retryAfterSeconds remainingQuota : Option Nat) :
    RateLimitState :=
  if quotaExhausted retryAfterSeconds remainingQuota then
    { isLimited := true
      retryAfterSeconds := retryAfterSeconds
      resetAt := some (now + retryAfterSeconds.getD 0) }
  else
    { isLimited := false, retryAfterSeconds := none, resetAt := none }

/-- Modelled from the spec: `currentState()` returns the latest snapshot. -/
def currentState (st : RateLimitState) : RateLimitState := st

/-- The dedup loop: `positions.forEach`, inserting a position into the
`uniquePositions` map only when its key is unseen; `seen` is the key set of
the map built so far.  Returns `Array.from(uniquePositions.values())`,
i.e. the first occurrence of each key in input order. -/
def dedupAux : List Key → List Position → List Position
  | _, [] => []
  | seen, p :: ps =>
      if posKey p ∈ seen then dedupAux seen ps
      else p :: dedupAux (posKey p :: seen) ps

/-- The deduplicated position list of `fetchWeatherForPositions`. -/
def dedup (positions : List Position) : List Position := dedupAux [] positions

/-- The chunking of the `for (let i = 0; i < n; i += maxConcurrent)` loop:
contiguous slices of length `n`, last one possibly shorter.  Written with
structural recursion on an explicit fuel so the kernel can evaluate it.
(The source loop does not terminate for `maxConcurrent = 0`; the claims all
assume a positive chunk size.) -/
def chunksOfAux {α : Type} (n : Nat) : Nat → List α → List (List α)
  | _, [] => []
  | 0, _ :: _ => []
  | fuel + 1, x :: xs => (x :: xs).take n :: chunksOfAux n fuel ((x :: xs).drop n)

/-- The chunking loop itself; a fuel of `l.length` suffices because every
iteration with a positive step consumes at least one element. -/
def chunksOf {α : Type} (n : Nat) (l : List α) : List (List α) :=
  chunksOfAux n l.length l

/-- Outcome of one chunk: the `(key, weather)` pairs of the settled fetches
that returned data (in chunk order), the cache afterwards, and the keys for
which an upstream request was issued. -/
structure ChunkAcc where
  results : List (Key × WeatherData)
  cache : Cache
  requests : List Key
deriving Repr

/-- One chunk: every position is fetched (`Promise.allSettled` — a failure
never aborts its siblings) and the fulfilled non-null results are collected
in order. -/
def runChunk (net : Position → UpstreamResponse) (now : Nat) :
    Cache → List Position → ChunkAcc
  | cache, [] => ⟨[], cache, []⟩
  | cache, p :: ps =>
      let fr := fetchWeatherData (net p) now cache p.latitude p.longitude
      let rest := runChunk net now fr.cache ps
      ⟨(match fr.result with
         | some w => [(posKey p, w)]
         | none => []) ++ rest.results,
       rest.cache,
       (if fr.requested then [posKey p] else []) ++ rest.requests⟩

/-- `entries.foldl` of `Map.set`, i.e. merging a result list into a map the
way the chunk loop writes `weatherMap.set` / `batchMap.set`. -/
def mapSetAll (m : List (Key × WeatherData)) (entries : List (Key × WeatherData)) :
    List (Key × WeatherData) :=
  entries.foldl (fun acc e => mapSet acc e.1 e.2) m

/-- Running state of the chunk loop: the accumulated `weatherMap`, the
cache, the keys requested upstream so far, and the payload handed to
`onBatchComplete` at each completed chunk (one list element per callback
invocation, in order). -/
structure RunState where
  weatherMap : List (Key × WeatherData)
  cache : Cache
  requests : List Key
  callbackPayloads : List (List (Key × WeatherData))
deriving Repr

/-- The chunk loop of `fetchWeatherForPositions`: chunks strictly in
sequence; after each chunk its results are merged into `weatherMap`, a fresh
`batchMap` of just that chunk is built, and `onBatchComplete(batchMap)` is
invoked (recorded as one payload). -/
def runChunks (net : Position → UpstreamResponse) (now : Nat) :
    RunState → List (List Position) → RunState
  | st, [] => st
  | st, chunk :: rest =>
      let ca := runChunk net now st.cache chunk
      runChunks net now
        { weatherMap := mapSetAll st.weatherMap ca.results
          cache := ca.cache
          requests := st.requests ++ ca.requests
          callbackPayloads := st.callbackPayloads ++ [mapSetAll [] ca.results] } rest

/-- The final re-expansion loop: `positions.forEach`, copying the entry for
each original position's key from `weatherMap` into `finalMap` when present. -/
def expandFinal (wm : List (Key × WeatherData)) :
    List (Key × WeatherData) → List Position → List (Key × WeatherData)
  | m, [] => m
  | m, pos :: ps =>
      match mapGet wm (posKey pos) with
      | some w => expandFinal wm (mapSet m (posKey pos) w) ps
      | none => expandFinal wm m ps

/-- Observable outcome of one `fetchWeatherForPositions` call. -/
structure RunResult where
  finalMap : List (Key × WeatherData)
  weatherMap : List (Key × WeatherData)
  cache : Cache
  requests : List Key
  callbackPayloads : List (List (Key × WeatherData))
deriving Repr

/-- `fetchWeatherForPositions(positions, maxConcurrent, onBatchComplete)`:
deduplicate, chunk, run the chunks in sequence, then map the results back
onto the original (pre-dedup) positions. -/
def fetchWeatherForPositions (net : Position → UpstreamResponse) (now : Nat)
    (cache₀ : Cache) (positions : List Position) (maxConcurrent : Nat) : RunResult :=
  let st := runChunks net now ⟨[], cache₀, [], []⟩
    (chunksOf maxConcurrent (dedup positions))
  { finalMap := expandFinal st.weatherMap [] positions
    weatherMap := st.weatherMap
    cache := st.cache
    requests := st.requests
    callbackPayloads := st.callbackPayloads }

/-- The value a single call returns given only what the upstream replies,
the clock, and the cache entry under the call's own key: a live entry is
served from the cache, otherwise the upstream response decides. -/
def upstreamResult (net : UpstreamResponse) (now : Nat) (latitude longitude : ℚ) :
    Option WeatherData :=
  match net with
  | .success (some current) => some (parseWeather current now latitude longitude)
  | _ => none

/-- Pointwise description of `fetchWeatherData`'s return value in terms of
the cache entry under the call's key. -/
def singleResult (net : UpstreamResponse) (now : Nat) (cached : Option CacheEntry)
    (latitude longitude : ℚ) : Option WeatherData :=
  match cached with
  | some c =>
      if now < c.expires then some c.data else upstreamResult net now latitude longitude
  | none => upstreamResult net now latitude longitude

/-- Whether a single call goes upstream, in terms of the cache entry under
the call's key: exactly when there is no live entry. -/
def singleRequested (now : Nat) (cached : Option CacheEntry) : Bool :=
  match cached with
  | some c => decide (c.expires ≤ now)
  | none => true

/-- The observation a batch run obtains for a deduplicated position, as a
function of the initial cache (each key is consulted at most once per run,
so only the initial entry under the position's own key matters). -/
def outcomeFor (net : Position → UpstreamResponse) (now : Nat) (cache₀ : Cache)
    (p : Position) : Option WeatherData :=
  singleResult (net p) now (mapGet cache₀ (posKey p)) p.latitude p.longitude

/-- The `(key, weather)` pairs a batch run collects from a position list. -/
def successes (net : Position → UpstreamResponse) (now : Nat) (cache₀ : Cache)
    (ps : List Position) : List (Key × WeatherData) :=
  ps.filterMap (fun p => (outcomeFor net now cache₀ p).map (fun w => (posKey p, w)))

/-- The keys a batch run requests upstream from a position list (whether a
request is issued depends only on the clock and the initial cache). -/
def requestKeys (now : Nat) (cache₀ : Cache)
    (ps : List Position) : List Key :=
  ps.filterMap (fun p =>
    if singleRequested now (mapGet cache₀ (posKey p)) then some (posKey p) else none)

/-! ### Association-list map lemmas -/

theorem mapGet_mapSet_self {α β : Type} [DecidableEq α] (m : List (α × β)) (k : α) (v : β) :
    mapGet (mapSet m k v) k = some v := by
  induction m with
  | nil => simp [mapGet, mapSet]
  | cons e es ih =>
      by_cases h : e.1 = k
      · simp [mapGet, mapSet, h]
      · simp [mapGet, mapSet, h, ih]

theorem mapGet_mapSet_ne {α β : Type} [DecidableEq α] (m : List (α × β)) (k k' : α) (v : β)
    (h : k' ≠ k) : mapGet (mapSet m k v) k' = mapGet m k' := by
  induction m with
  | nil => simp [mapGet, mapSet, Ne.symm h]
  | cons e es ih =>
      by_cases he : e.1 = k
      · subst he
        simp [mapGet, mapSet, Ne.symm h]
      · by_cases he' : e.1 = k'
        · simp [mapGet, mapSet, he, he', h]
        · simp [mapGet, mapSet, he, he', ih]

theorem mapSet_of_get_none {α β : Type} [DecidableEq α] (m : List (α × β)) (k : α) (v : β)
    (h : mapGet m k = none) : mapSet m k v = m ++ [(k, v)] := by
  induction m with
  | nil => simp [mapSet]
  | cons e es ih =>
      by_cases he : e.1 = k
      · simp [mapGet, he] at h
      · simp [mapGet, he] at h
        simp [mapSet, he, ih h]

theorem mapGet_append_of_none {α β : Type} [DecidableEq α] (m m' : List (α × β)) (k : α)
    (h : mapGet m k = none) : mapGet (m ++ m') k = mapGet m' k := by
  induction m with
  | nil => simp
  | cons e es ih =>
      by_cases he : e.1 = k
      · simp [mapGet, he] at h
      · simp [mapGet, he] at h
        simp [mapGet, he, ih h]

theorem mapGet_eq_none_of_forall {α β : Type} [DecidableEq α] (m : List (α × β)) (k : α)
    (h : ∀ e ∈ m, e.1 ≠ k) : mapGet m k = none := by
  induction m with
  | nil => rfl
  | cons e es ih =>
      have h1 : e.1 ≠ k := h e (by simp)
      simp [mapGet, h1]
      exact ih (fun e' he' => h e' (by simp [he']))

theorem exists_mem_of_mapGet_eq_some {α β : Type} [DecidableEq α] (m : List (α × β)) (k : α)
    (v : β) (h : mapGet m k = some v) : (k, v) ∈ m := by
  induction m with
  | nil => simp [mapGet] at h
  | cons e es ih =>
      by_cases he : e.1 = k
      · simp only [mapGet, he, if_pos, Option.some.injEq] at h
        have hek : e = (k, v) := by
          obtain ⟨a, b⟩ := e
          simp only at he h
          simp [he, h]
        rw [hek]
        exact List.mem_cons_self _ _
      · simp only [mapGet, he, if_neg, if_false] at h
        exact List.mem_cons_of_mem _ (ih h)

theorem mapSetAll_append (m : List (Key × WeatherData)) (a b : List (Key × WeatherData)) :
    mapSetAll m (a ++ b) = mapSetAll (mapSetAll m a) b := by
  simp [mapSetAll, List.foldl_append]

theorem mapSetAll_fresh (m : List (Key × WeatherData)) (entries : List (Key × WeatherData))
    (hnd : (entries.map Prod.fst).Nodup) (h : ∀ e ∈ entries, mapGet m e.1 = none) :
    mapSetAll m entries = m ++ entries := by
  induction entries generalizing m with
  | nil => simp [mapSetAll]
  | cons e es ih =>
      simp only [List.map_cons, List.nodup_cons] at hnd
      have h1 : mapGet m e.1 = none := h e (by simp)
      have step : mapSet m e.1 e.2 = m ++ [(e.1, e.2)] := mapSet_of_get_none m e.1 e.2 h1
      have h2 : ∀ e' ∈ es, mapGet (m ++ [(e.1, e.2)]) e'.1 = none := by
        intro e' he'
        have hne : e'.1 ≠ e.1 := by
          intro hc
          exact hnd.1 (hc ▸ List.mem_map_of_mem Prod.fst he')
        rw [mapGet_append_of_none _ _ _ (h e' (by simp [he']))]
        simp [mapGet, Ne.symm hne]
      calc mapSetAll m (e :: es) = mapSetAll (mapSet m e.1 e.2) es := by
            simp [mapSetAll]
        _ = mapSetAll (m ++ [(e.1, e.2)]) es := by rw [step]
        _ = (m ++ [(e.1, e.2)]) ++ es := ih _ hnd.2 h2
        _ = m ++ (e :: es) := by simp

/-! ### Chunking lemmas -/

theorem chunksOfAux_flatten {α : Type} (n : Nat) (hn : n ≠ 0) :
    ∀ (fuel : Nat) (l : List α), l.length ≤ fuel → (chunksOfAux n fuel l).flatten = l := by
  intro fuel
  induction fuel with
  | zero =>
      intro l hl
      cases l with
      | nil => rfl
      | cons x xs => simp at hl
  | succ fuel ih =>
      intro l hl
      cases l with
      | nil => rfl
      | cons x xs =>
          have hlen : ((x :: xs).drop n).length ≤ fuel := by
            simp only [List.length_drop, List.length_cons]
            simp only [List.length_cons] at hl
            omega
          simp only [chunksOfAux, List.flatten_cons]
          rw [ih _ hlen, List.take_append_drop]

theorem chunksOf_flatten {α : Type} (n : Nat) (hn : n ≠ 0) (l : List α) :
    (chunksOf n l).flatten = l :=
  chunksOfAux_flatten n hn l.length l le_rfl

theorem chunksOfAux_length {α : Type} (n : Nat) (hn : n ≠ 0) :
    ∀ (fuel : Nat) (l : List α), l.length ≤ fuel →
      (chunksOfAux n fuel l).length = (l.length + n - 1) / n := by
  intro fuel
  induction fuel with
  | zero =>
      intro l hl
      cases l with
      | nil =>
          simp only [chunksOfAux, List.length_nil]
          rw [Nat.div_eq_of_lt (by omega)]
      | cons x xs => simp at hl
  | succ fuel ih =>
      intro l hl
      cases l with
      | nil =>
          simp only [chunksOfAux, List.length_nil]
          rw [Nat.div_eq_of_lt (by omega)]
      | cons x xs =>
          have hlen : ((x :: xs).drop n).length ≤ fuel := by
            simp only [List.length_drop, List.length_cons]
            simp only [List.length_cons] at hl
            omega
          simp only [chunksOfAux, List.length_cons]
          rw [ih _ hlen]
          simp only [List.length_drop, List.length_cons]
          have hpos : 0 < n := Nat.pos_of_ne_zero hn
          have e1 : xs.length + 1 + n - 1 = (xs.length + 1 - 1) + n := by omega
          rw [e1, Nat.add_div_right _ hpos]
          by_cases hle : n ≤ xs.length + 1
          · have e2 : xs.length + 1 - n + n - 1 = xs.length + 1 - 1 := by omega
            rw [e2]
          · have e3 : xs.length + 1 - n = 0 := by omega
            rw [e3]
            rw [Nat.div_eq_of_lt (by omega), Nat.div_eq_of_lt (by omega)]

theorem chunksOf_length {α : Type} (n : Nat) (hn : n ≠ 0) (l : List α) :
    (chunksOf n l).length = (l.length + n - 1) / n :=
  chunksOfAux_length n hn l.length l le_rfl

/-! ### Dedup lemmas -/

theorem dedupAux_mem (ps : List Position) (q : Position) :
    ∀ seen : List Key, q ∈ dedupAux seen ps → q ∈ ps := by
  induction ps with
  | nil => intro seen hq; simp [dedupAux] at hq
  | cons p ps ih =>
      intro seen hq
      simp only [dedupAux] at hq
      by_cases hm : posKey p ∈ seen
      · rw [if_pos hm] at hq
        exact List.mem_cons_of_mem _ (ih seen hq)
      · rw [if_neg hm] at hq
        rcases List.mem_cons.mp hq with h | h
        · exact h ▸ List.mem_cons_self _ _
        · exact List.mem_cons_of_mem _ (ih _ h)

theorem dedup_mem (positions : List Position) (q : Position) (hq : q ∈ dedup positions) :
    q ∈ positions :=
  dedupAux_mem positions q [] hq

theorem dedupAux_nodup (ps : List Position) :
    ∀ seen : List Key, ((dedupAux seen ps).map posKey).Nodup ∧
      ∀ k ∈ (dedupAux seen ps).map posKey, k ∉ seen := by
  induction ps with
  | nil => intro seen; simp [dedupAux]
  | cons p ps ih =>
      intro seen
      by_cases hm : posKey p ∈ seen
      · simp only [dedupAux, if_pos hm]
        exact ih seen
      · simp only [dedupAux, if_neg hm, List.map_cons, List.nodup_cons]
        obtain ⟨ihn, ihs⟩ := ih (posKey p :: seen)
        refine ⟨⟨?_, ihn⟩, ?_⟩
        · intro hc
          exact (ihs _ hc) (List.mem_cons_self _ _)
        · intro k hk
          rcases List.mem_cons.mp hk with h | h
          · exact h ▸ hm
          · intro hkseen
            exact (ihs k h) (List.mem_cons_of_mem _ hkseen)

theorem dedup_keys_nodup (positions : List Position) :
    ((dedup positions).map posKey).Nodup :=
  (dedupAux_nodup positions []).1

theorem dedupAux_covers (ps : List Position) (p : Position) (hp : p ∈ ps) :
    ∀ seen : List Key, posKey p ∉ seen → posKey p ∈ (dedupAux seen ps).map posKey := by
  induction ps with
  | nil => cases hp
  | cons q ps ih =>
      intro seen hs
      by_cases hm : posKey q ∈ seen
      · simp only [dedupAux, if_pos hm]
        rcases List.mem_cons.mp hp with h | h
        · exact absurd (h ▸ hm) hs
        · exact ih h seen hs
      · simp only [dedupAux, if_neg hm, List.map_cons]
        by_cases hpq : posKey p = posKey q
        · rw [hpq]
          exact List.mem_cons_self _ _
        · rcases List.mem_cons.mp hp with h | h
          · exact absurd (congrArg posKey h) hpq
          · refine List.mem_cons_of_mem _ (ih h (posKey q :: seen) ?_)
            intro hc
            rcases List.mem_cons.mp hc with h' | h'
            · exact hpq h'
            · exact hs h'

theorem dedup_covers (positions : List Position) (p : Position) (hp : p ∈ positions) :
    posKey p ∈ (dedup positions).map posKey :=
  dedupAux_covers positions p hp [] (List.not_mem_nil _)

theorem dedupAux_of_nodup (ps : List Position) (hnd : (ps.map posKey).Nodup) :
    ∀ seen : List Key, (∀ p ∈ ps, posKey p ∉ seen) → dedupAux seen ps = ps := by
  induction ps with
  | nil => intro seen _; rfl
  | cons p ps ih =>
      intro seen hs
      simp only [List.map_cons, List.nodup_cons] at hnd
      have hm : posKey p ∉ seen := hs p (List.mem_cons_self _ _)
      simp only [dedupAux, if_neg hm]
      congr 1
      refine ih hnd.2 _ ?_
      intro q hq hc
      rcases List.mem_cons.mp hc with h | h
      · exact hnd.1 (h ▸ List.mem_map_of_mem posKey hq)
      · exact hs q (List.mem_cons_of_mem _ hq) h

theorem dedup_of_nodup (positions : List Position)
    (hnd : (positions.map posKey).Nodup) : dedup positions = positions :=
  dedupAux_of_nodup positions hnd [] (by simp)

/-! ### Lemmas about the per-run outcome lists -/

theorem successes_append (net : Position → UpstreamResponse) (now : Nat) (cache₀ : Cache)
    (a b : List Position) :
    successes net now cache₀ (a ++ b)
      = successes net now cache₀ a ++ successes net now cache₀ b := by
  simp [successes, List.filterMap_append]

theorem requestKeys_append (now : Nat) (cache₀ : Cache) (a b : List Position) :
    requestKeys now cache₀ (a ++ b) = requestKeys now cache₀ a ++ requestKeys now cache₀ b := by
  simp [requestKeys, List.filterMap_append]

theorem successes_keys_sublist (net : Position → UpstreamResponse) (now : Nat)
    (cache₀ : Cache) (ps : List Position) :
    ((successes net now cache₀ ps).map Prod.fst).Sublist (ps.map posKey) := by
  induction ps with
  | nil => simp [successes]
  | cons p ps ih =>
      simp only [successes, List.filterMap_cons, List.map_cons]
      cases h : outcomeFor net now cache₀ p with
      | none => exact ih.cons _
      | some w =>
          simp only [Option.map_some', List.map_cons]
          exact List.Sublist.cons₂ _ ih

theorem mem_successes (net : Position → UpstreamResponse) (now : Nat) (cache₀ : Cache)
    (ps : List Position) (e : Key × WeatherData) (he : e ∈ successes net now cache₀ ps) :
    ∃ p, p ∈ ps ∧ e.1 = posKey p ∧ outcomeFor net now cache₀ p = some e.2 := by
  simp only [successes, List.mem_filterMap] at he
  obtain ⟨p, hp, hmap⟩ := he
  cases h : outcomeFor net now cache₀ p with
  | none => rw [h] at hmap; simp at hmap
  | some w =>
      rw [h] at hmap
      simp only [Option.map_some', Option.some.injEq] at hmap
      exact ⟨p, hp, by rw [← hmap], by rw [h, ← hmap]⟩

theorem count_requestKeys_le (now : Nat) (cache₀ : Cache) (ps : List Position) (k : Key) :
    (requestKeys now cache₀ ps).count k ≤ (ps.map posKey).count k := by
  induction ps with
  | nil => simp [requestKeys]
  | cons p ps ih =>
      by_cases hr : singleRequested now (mapGet cache₀ (posKey p)) = true
      · have hstep : requestKeys now cache₀ (p :: ps)
            = posKey p :: requestKeys now cache₀ ps := by
          simp [requestKeys, List.filterMap_cons, hr]
        rw [hstep, List.map_cons, List.count_cons, List.count_cons]
        omega
      · have hstep : requestKeys now cache₀ (p :: ps) = requestKeys now cache₀ ps := by
          simp [requestKeys, List.filterMap_cons, hr]
        rw [hstep, List.map_cons, List.count_cons]
        omega

/-! ### Single-call lemmas -/

theorem fetchUpstream_requested (net : UpstreamResponse) (now : Nat) (cache : Cache)
    (lat lon : ℚ) : (fetchUpstream net now cache lat lon).requested = true := by
  cases net with
  | timeout => rfl
  | status code => simp [fetchUpstream]
  | success current => cases current <;> rfl

theorem fetchUpstream_result (net : UpstreamResponse) (now : Nat) (cache : Cache)
    (lat lon : ℚ) :
    (fetchUpstream net now cache lat lon).result = upstreamResult net now lat lon := by
  cases net with
  | timeout => rfl
  | status code => simp [fetchUpstream, upstreamResult]
  | success current => cases current <;> rfl

theorem fetchUpstream_cache_ne (net : UpstreamResponse) (now : Nat) (cache : Cache)
    (lat lon : ℚ) (k : Key) (h : k ≠ posKeyC lat lon) :
    mapGet (fetchUpstream net now cache lat lon).cache k = mapGet cache k := by
  cases net with
  | timeout => rfl
  | status code => simp [fetchUpstream]
  | success current =>
      cases current with
      | none => rfl
      | some cur => simp [fetchUpstream, mapGet_mapSet_ne _ _ _ _ h]

theorem fetchWeatherData_result (net : UpstreamResponse) (now : Nat) (cache : Cache)
    (lat lon : ℚ) :
    (fetchWeatherData net now cache lat lon).result
      = singleResult net now (mapGet cache (posKeyC lat lon)) lat lon := by
  unfold fetchWeatherData singleResult
  cases h : mapGet cache (posKeyC lat lon) with
  | none => simp [fetchUpstream_result]
  | some c =>
      by_cases hl : now < c.expires
      · simp [hl]
      · simp [hl, fetchUpstream_result]

theorem fetchWeatherData_requested (net : UpstreamResponse) (now : Nat) (cache : Cache)
    (lat lon : ℚ) :
    (fetchWeatherData net now cache lat lon).requested
      = singleRequested now (mapGet cache (posKeyC lat lon)) := by
  unfold fetchWeatherData singleRequested
  cases h : mapGet cache (posKeyC lat lon) with
  | none => simp [fetchUpstream_requested]
  | some c =>
      by_cases hl : now < c.expires
      · simp [hl, Nat.not_le.mpr hl]
      · simp [hl, fetchUpstream_requested, Nat.not_lt.mp hl]

theorem fetchWeatherData_cache_ne (net : UpstreamResponse) (now : Nat) (cache : Cache)
    (lat lon : ℚ) (k : Key) (h : k ≠ posKeyC lat lon) :
    mapGet (fetchWeatherData net now cache lat lon).cache k = mapGet cache k := by
  unfold fetchWeatherData
  cases hg : mapGet cache (posKeyC lat lon) with
  | none => simp [fetchUpstream_cache_ne _ _ _ _ _ _ h]
  | some c =>
      by_cases hl : now < c.expires
      · simp [hl]
      · simp [hl, fetchUpstream_cache_ne _ _ _ _ _ _ h]

/-! ### Batch-run lemmas -/

theorem posKey_def (p : Position) : posKeyC p.latitude p.longitude = posKey p := rfl

theorem runChunk_spec (net : Position → UpstreamResponse) (now : Nat) (cache₀ : Cache)
    (chunk : List Position) :
    ∀ cache : Cache, (chunk.map posKey).Nodup →
      (∀ p ∈ chunk, mapGet cache (posKey p) = mapGet cache₀ (posKey p)) →
      (runChunk net now cache chunk).results = successes net now cache₀ chunk ∧
      (runChunk net now cache chunk).requests = requestKeys now cache₀ chunk ∧
      ∀ k, k ∉ chunk.map posKey →
        mapGet (runChunk net now cache chunk).cache k = mapGet cache k := by
  induction chunk with
  | nil =>
      intro cache _ _
      exact ⟨rfl, rfl, fun k _ => rfl⟩
  | cons p ps ih =>
      intro cache hnd hagree
      simp only [List.map_cons, List.nodup_cons] at hnd
      have hres : (fetchWeatherData (net p) now cache p.latitude p.longitude).result
          = outcomeFor net now cache₀ p := by
        rw [fetchWeatherData_result, posKey_def, hagree p (List.mem_cons_self _ _)]
        rfl
      have hreq : (fetchWeatherData (net p) now cache p.latitude p.longitude).requested
          = singleRequested now (mapGet cache₀ (posKey p)) := by
        rw [fetchWeatherData_requested, posKey_def, hagree p (List.mem_cons_self _ _)]
      have htail : ∀ q ∈ ps,
          mapGet (fetchWeatherData (net p) now cache p.latitude p.longitude).cache (posKey q)
            = mapGet cache₀ (posKey q) := by
        intro q hq
        have hne : posKey q ≠ posKey p := by
          intro hc
          exact hnd.1 (hc ▸ List.mem_map_of_mem posKey hq)
        rw [fetchWeatherData_cache_ne _ _ _ _ _ _ hne]
        exact hagree q (List.mem_cons_of_mem _ hq)
      obtain ⟨ihr, ihq, ihc⟩ :=
        ih (fetchWeatherData (net p) now cache p.latitude p.longitude).cache hnd.2 htail
      refine ⟨?_, ?_, ?_⟩
      · simp only [runChunk]
        rw [ihr, hres]
        cases h : outcomeFor net now cache₀ p with
        | none => simp [successes, List.filterMap_cons, h]
        | some w => simp [successes, List.filterMap_cons, h]
      · simp only [runChunk]
        rw [ihq, hreq]
        by_cases h : singleRequested now (mapGet cache₀ (posKey p)) = true
        · simp [requestKeys, List.filterMap_cons, h]
        · simp only [Bool.not_eq_true] at h
          simp [requestKeys, List.filterMap_cons, h]
      · intro k hk
        simp only [List.map_cons, List.mem_cons] at hk
        push_neg at hk
        simp only [runChunk]
        rw [ihc k hk.2]
        exact fetchWeatherData_cache_ne _ _ _ _ _ _ hk.1

theorem runChunks_spec (net : Position → UpstreamResponse) (now : Nat) (cache₀ : Cache)
    (chunks : List (List Position)) :
    ∀ st : RunState, ((chunks.flatten).map posKey).Nodup →
      (∀ p ∈ chunks.flatten, mapGet st.cache (posKey p) = mapGet cache₀ (posKey p)) →
      (runChunks net now st chunks).weatherMap
          = mapSetAll st.weatherMap (successes net now cache₀ chunks.flatten) ∧
      (runChunks net now st chunks).requests
          = st.requests ++ requestKeys now cache₀ chunks.flatten ∧
      (runChunks net now st chunks).callbackPayloads
          = st.callbackPayloads
            ++ chunks.map (fun c => mapSetAll [] (successes net now cache₀ c)) := by
  induction chunks with
  | nil =>
      intro st _ _
      refine ⟨?_, ?_, ?_⟩ <;> simp [runChunks, mapSetAll, successes, requestKeys]
  | cons c rest ih =>
      intro st hnd hagree
      simp only [List.flatten_cons, List.map_append, List.nodup_append] at hnd
      obtain ⟨hndc, hndr, hdisj⟩ := hnd
      have hagc : ∀ p ∈ c, mapGet st.cache (posKey p) = mapGet cache₀ (posKey p) :=
        fun p hp => hagree p (by simp [hp])
      obtain ⟨hcr, hcq, hcc⟩ := runChunk_spec net now cache₀ c st.cache hndc hagc
      have hagr : ∀ p ∈ rest.flatten,
          mapGet (runChunk net now st.cache c).cache (posKey p)
            = mapGet cache₀ (posKey p) := by
        intro p hp
        have hk : posKey p ∉ c.map posKey := by
          intro hc
          exact hdisj hc (List.mem_map_of_mem posKey hp)
        rw [hcc (posKey p) hk]
        exact hagree p (by simp [hp])
      obtain ⟨ihw, ihq, ihc⟩ := ih
        { weatherMap := mapSetAll st.weatherMap (runChunk net now st.cache c).results
          cache := (runChunk net now st.cache c).cache
          requests := st.requests ++ (runChunk net now st.cache c).requests
          callbackPayloads := st.callbackPayloads
            ++ [mapSetAll [] (runChunk net now st.cache c).results] }
        hndr hagr
      refine ⟨?_, ?_, ?_⟩
      · simp only [runChunks]
        rw [ihw]
        simp only [hcr, List.flatten_cons, successes_append, mapSetAll_append]
      · simp only [runChunks]
        rw [ihq]
        simp only [hcq, List.flatten_cons, requestKeys_append, List.append_assoc]
      · simp only [runChunks]
        rw [ihc]
        simp only [hcr, List.map_cons, List.append_assoc, List.singleton_append]

theorem expandFinal_get_none (wm : List (Key × WeatherData)) (k : Key)
    (hw : mapGet wm k = none) (ps : List Position) :
    ∀ m : List (Key × WeatherData), mapGet (expandFinal wm m ps) k = mapGet m k := by
  induction ps with
  | nil => intro m; rfl
  | cons pos ps ih =>
      intro m
      simp only [expandFinal]
      cases h : mapGet wm (posKey pos) with
      | none => exact ih m
      | some w =>
          rw [ih _]
          apply mapGet_mapSet_ne
          intro hc
          rw [hc] at hw
          rw [hw] at h
          cases h

theorem expandFinal_get_some (wm : List (Key × WeatherData)) (k : Key) (w : WeatherData)
    (hw : mapGet wm k = some w) (ps : List Position) :
    ∀ m : List (Key × WeatherData),
      (mapGet m k = some w ∨ ∃ p ∈ ps, posKey p = k) →
      mapGet (expandFinal wm m ps) k = some w := by
  induction ps with
  | nil =>
      intro m h
      rcases h with h | ⟨p, hp, _⟩
      · exact h
      · cases hp
  | cons pos ps ih =>
      intro m h
      simp only [expandFinal]
      cases hg : mapGet wm (posKey pos) with
      | none =>
          apply ih
          rcases h with h | ⟨p, hp, hk⟩
          · exact Or.inl h
          · rcases List.mem_cons.mp hp with h' | h'
            · subst h'
              rw [hk] at hg
              rw [hg] at hw
              cases hw
            · exact Or.inr ⟨p, h', hk⟩
      | some w' =>
          apply ih
          by_cases hkp : posKey pos = k
          · left
            have hww : w' = w := by
              rw [hkp] at hg
              rw [hg] at hw
              injection hw
            rw [hkp, hww]
            exact mapGet_mapSet_self _ _ _
          · rcases h with h | ⟨p, hp, hk⟩
            · left
              rw [mapGet_mapSet_ne _ _ _ _ (fun hc => hkp hc.symm)]
              exact h
            · rcases List.mem_cons.mp hp with h' | h'
              · exact absurd (h' ▸ hk) hkp
              · exact Or.inr ⟨p, h', hk⟩

theorem successes_keys_nodup (net : Position → UpstreamResponse) (now : Nat)
    (cache₀ : Cache) (ps : List Position) (hnd : (ps.map posKey).Nodup) :
    ((successes net now cache₀ ps).map Prod.fst).Nodup :=
  hnd.sublist (successes_keys_sublist net now cache₀ ps)

theorem run_spec (net : Position → UpstreamResponse) (now : Nat) (cache₀ : Cache)
    (positions : List Position) (M : Nat) (hM : M ≠ 0) :
    (fetchWeatherForPositions net now cache₀ positions M).weatherMap
        = successes net now cache₀ (dedup positions) ∧
    (fetchWeatherForPositions net now cache₀ positions M).requests
        = requestKeys now cache₀ (dedup positions) ∧
    (fetchWeatherForPositions net now cache₀ positions M).callbackPayloads
        = (chunksOf M (dedup positions)).map
            (fun c => mapSetAll [] (successes net now cache₀ c)) := by
  have hflat : (chunksOf M (dedup positions)).flatten = dedup positions :=
    chunksOf_flatten M hM _
  have hnd : ((chunksOf M (dedup positions)).flatten.map posKey).Nodup := by
    rw [hflat]
    exact dedup_keys_nodup positions
  have hagree : ∀ p ∈ (chunksOf M (dedup positions)).flatten,
      mapGet (⟨[], cache₀, [], []⟩ : RunState).cache (posKey p)
        = mapGet cache₀ (posKey p) := fun p _ => rfl
  obtain ⟨hw, hq, hc⟩ := runChunks_spec net now cache₀ (chunksOf M (dedup positions))
    ⟨[], cache₀, [], []⟩ hnd hagree
  refine ⟨?_, ?_, ?_⟩
  · show (runChunks net now ⟨[], cache₀, [], []⟩ (chunksOf M (dedup positions))).weatherMap = _
    rw [hw, hflat]
    rw [mapSetAll_fresh [] _
      (successes_keys_nodup net now cache₀ _ (dedup_keys_nodup positions))
      (fun e _ => rfl)]
    simp
  · show (runChunks net now ⟨[], cache₀, [], []⟩ (chunksOf M (dedup positions))).requests = _
    rw [hq, hflat]
    simp
  · show (runChunks net now
        ⟨[], cache₀, [], []⟩ (chunksOf M (dedup positions))).callbackPayloads = _
    rw [hc]
    simp

theorem run_finalMap_get (net : Position → UpstreamResponse) (now : Nat) (cache₀ : Cache)
    (positions : List Position) (M : Nat) (hM : M ≠ 0) (k : Key) :
    mapGet (fetchWeatherForPositions net now cache₀ positions M).finalMap k
      = mapGet (fetchWeatherForPositions net now cache₀ positions M).weatherMap k := by
  have hfin : (fetchWeatherForPositions net now cache₀ positions M).finalMap
      = expandFinal (fetchWeatherForPositions net now cache₀ positions M).weatherMap
          [] positions := rfl
  rw [hfin]
  cases hget : mapGet (fetchWeatherForPositions net now cache₀ positions M).weatherMap k with
  | none => rw [expandFinal_get_none _ _ hget positions []]; rfl
  | some w =>
      have hmem := exists_mem_of_mapGet_eq_some _ _ _ hget
      rw [(run_spec net now cache₀ positions M hM).1] at hmem
      obtain ⟨q, hq, hkq, _⟩ := mem_successes net now cache₀ _ _ hmem
      exact expandFinal_get_some _ _ _ hget positions []
        (Or.inr ⟨q, dedup_mem positions q hq, hkq.symm⟩)

theorem singleRequested_expired (now : Nat) (c : CacheEntry)
    (h : singleRequested now (some c) = true) : c.expires ≤ now := by
  unfold singleRequested at h
  simpa using h

theorem fetchWeatherData_of_requested (net : UpstreamResponse) (now : Nat) (cache : Cache)
    (lat lon : ℚ) (h : singleRequested now (mapGet cache (posKeyC lat lon)) = true) :
    fetchWeatherData net now cache lat lon = fetchUpstream net now cache lat lon := by
  unfold fetchWeatherData
  cases hg : mapGet cache (posKeyC lat lon) with
  | none => rfl
  | some c =>
      rw [hg] at h
      dsimp only
      rw [if_neg (Nat.not_lt.mpr (singleRequested_expired now c h))]

theorem singleResult_eq_upstream (net : UpstreamResponse) (now : Nat)
    (cached : Option CacheEntry) (lat lon : ℚ) (h : singleRequested now cached = true) :
    singleResult net now cached lat lon = upstreamResult net now lat lon := by
  cases cached with
  | none => rfl
  | some c =>
      unfold singleResult
      dsimp only
      rw [if_neg (Nat.not_lt.mpr (singleRequested_expired now c h))]

theorem upstreamResult_coords (net : UpstreamResponse) (now : Nat) (lat lon : ℚ)
    (w : WeatherData) (h : upstreamResult net now lat lon = some w) :
    w.latitude = lat ∧ w.longitude = lon := by
  cases net with
  | timeout => cases h
  | status code => cases h
  | success current =>
      cases current with
      | none => cases h
      | some cur =>
          unfold upstreamResult at h
          injection h with h
          rw [← h]
          exact ⟨rfl, rfl⟩

theorem count_le_one_of_nodup {α : Type} [BEq α] [LawfulBEq α] (l : List α)
    (hnd : l.Nodup) (a : α) : l.count a ≤ 1 := by
  induction l with
  | nil => simp
  | cons b l ih =>
      simp only [List.nodup_cons] at hnd
      rw [List.count_cons]
      by_cases hab : a = b
      · subst hab
        have h0 : l.count a = 0 := List.count_eq_zero_of_not_mem hnd.1
        simp [h0]
      · have hf : (b == a) = false := beq_eq_false_iff_ne.mpr (Ne.symm hab)
        simp only [hf, Bool.false_eq_true, if_false, Nat.add_zero]
        exact Nat.le_trans (ih hnd.2) (Nat.le_refl 1)

theorem successes_flatten (net : Position → UpstreamResponse) (now : Nat) (cache₀ : Cache)
    (L : List (List Position)) :
    (L.map (fun c => successes net now cache₀ c)).flatten
      = successes net now cache₀ L.flatten := by
  induction L with
  | nil => rfl
  | cons c rest ih => simp [successes_append, ih]

/-! ### Claim theorems -/

/-- C2: for every cache entry, a `fetchWeatherData` call for that entry's
key strictly before `expiresAt` returns the cached observation and issues no
upstream request, while a call at or after `expiresAt` always issues one and
behaves exactly as the upstream branch — the cache entry is never returned
once `now ≥ expiresAt`. -/
theorem C2_ttl_boundary (net : UpstreamResponse) (now : Nat) (cache : Cache)
    (lat lon : ℚ) (entry : CacheEntry)
    (hc : mapGet cache (posKeyC lat lon) = some entry) :
    (now < entry.expires →
      fetchWeatherData net now cache lat lon = ⟨some entry.data, cache, false⟩) ∧
    (entry.expires ≤ now →
      (fetchWeatherData net now cache lat lon).requested = true ∧
      fetchWeatherData net now cache lat lon = fetchUpstream net now cache lat lon) := by
  constructor
  · intro hlt
    unfold fetchWeatherData
    rw [hc]
    dsimp only
    rw [if_pos hlt]
  · intro hge
    have heq : fetchWeatherData net now cache lat lon
        = fetchUpstream net now cache lat lon := by
      unfold fetchWeatherData
      rw [hc]
      dsimp only
      rw [if_neg (Nat.not_lt.mpr hge)]
    exact ⟨heq ▸ fetchUpstream_requested net now cache lat lon, heq⟩

theorem C2_ttl_boundary_witness :
    ((10 : Nat) < (50 : Nat) →
      fetchWeatherData .timeout 10
          [((100, 200), ⟨⟨1, 2, .num 5, .num 0, .num 0, .num 0, .num 0, 0⟩, 50⟩)] 1 2
        = ⟨some ⟨1, 2, .num 5, .num 0, .num 0, .num 0, .num 0, 0⟩,
           [((100, 200), ⟨⟨1, 2, .num 5, .num 0, .num 0, .num 0, .num 0, 0⟩, 50⟩)], false⟩) ∧
    ((50 : Nat) ≤ 10 →
      (fetchWeatherData .timeout 10
          [((100, 200), ⟨⟨1, 2, .num 5, .num 0, .num 0, .num 0, .num 0, 0⟩, 50⟩)]
          1 2).requested = true ∧
      fetchWeatherData .timeout 10
          [((100, 200), ⟨⟨1, 2, .num 5, .num 0, .num 0, .num 0, .num 0, 0⟩, 50⟩)] 1 2
        = fetchUpstream .timeout 10
            [((100, 200), ⟨⟨1, 2, .num 5, .num 0, .num 0, .num 0, .num 0, 0⟩, 50⟩)] 1 2) :=
  C2_ttl_boundary .timeout 10
    [((100, 200), ⟨⟨1, 2, .num 5, .num 0, .num 0, .num 0, .num 0, 0⟩, 50⟩)] 1 2
    ⟨⟨1, 2, .num 5, .num 0, .num 0, .num 0, .num 0, 0⟩, 50⟩ (by decide)

/-- C3: a rate-limited upstream response (HTTP 429, here with a positive
retry-after signal) leaves the tracker state observable through
`currentState` with `isLimited = true` and `resetAt` strictly in the future
of the recording moment, and the fetch that received it returns absent
without creating or modifying any cache entry.  The tracker is modelled
from the spec (its source is not among the available files). -/
theorem C3_rate_limit_recorded_no_cache (now r : Nat) (remaining : Option Nat)
    (hr : 0 < r) (cache : Cache) (lat lon : ℚ)
    (hmiss : singleRequested now (mapGet cache (posKeyC lat lon)) = true) :
    (currentState (recordResponse now (some r) remaining)).isLimited = true ∧
    (∃ t, (currentState (recordResponse now (some r) remaining)).resetAt = some t ∧
      now < t) ∧
    (fetchWeatherData (.status 429) now cache lat lon).result = none ∧
    (fetchWeatherData (.status 429) now cache lat lon).cache = cache := by
  have heq := fetchWeatherData_of_requested (.status 429) now cache lat lon hmiss
  refine ⟨?_, ⟨now + r, ?_, by omega⟩, ?_, ?_⟩
  · simp [currentState, recordResponse, quotaExhausted]
  · simp [currentState, recordResponse, quotaExhausted]
  · rw [heq]
    simp [fetchUpstream]
  · rw [heq]
    simp [fetchUpstream]

theorem C3_rate_limit_recorded_no_cache_witness :
    (currentState (recordResponse 100 (some 60) none)).isLimited = true ∧
    (∃ t, (currentState (recordResponse 100 (some 60) none)).resetAt = some t ∧
      100 < t) ∧
    (fetchWeatherData (.status 429) 100 [] 0 0).result = none ∧
    (fetchWeatherData (.status 429) 100 [] 0 0).cache = [] :=
  C3_rate_limit_recorded_no_cache 100 60 none (by decide) [] 0 0 (by decide)

/-- C6: two `fetchWeatherData` calls in rapid succession for the same
position, the first going upstream and succeeding, the second within the
TTL window opened by the first: the first call issues the only network
request, the second issues none and returns the identical observation. -/
theorem C6_idempotent_within_ttl (net₂ : UpstreamResponse) (now₁ now₂ : Nat)
    (cache : Cache) (lat lon : ℚ) (cur : CurrentPayload)
    (hmiss : singleRequested now₁ (mapGet cache (posKeyC lat lon)) = true)
    (h12 : now₁ ≤ now₂) (hwin : now₂ < now₁ + CACHE_TTL) :
    (fetchWeatherData (.success (some cur)) now₁ cache lat lon).result
        = some (parseWeather cur now₁ lat lon) ∧
    (fetchWeatherData (.success (some cur)) now₁ cache lat lon).requested = true ∧
    (fetchWeatherData net₂ now₂
        (fetchWeatherData (.success (some cur)) now₁ cache lat lon).cache lat
        lon).result
      = (fetchWeatherData (.success (some cur)) now₁ cache lat lon).result ∧
    (fetchWeatherData net₂ now₂
        (fetchWeatherData (.success (some cur)) now₁ cache lat lon).cache lat
        lon).requested = false := by
  have h1 : fetchWeatherData (.success (some cur)) now₁ cache lat lon
      = ⟨some (parseWeather cur now₁ lat lon),
         mapSet cache (posKeyC lat lon)
           ⟨parseWeather cur now₁ lat lon, now₁ + CACHE_TTL⟩, true⟩ := by
    rw [fetchWeatherData_of_requested _ _ _ _ _ hmiss]
    rfl
  have h2 : fetchWeatherData net₂ now₂
      (mapSet cache (posKeyC lat lon)
        ⟨parseWeather cur now₁ lat lon, now₁ + CACHE_TTL⟩) lat lon
      = ⟨some (parseWeather cur now₁ lat lon),
         mapSet cache (posKeyC lat lon)
           ⟨parseWeather cur now₁ lat lon, now₁ + CACHE_TTL⟩, false⟩ := by
    unfold fetchWeatherData
    rw [mapGet_mapSet_self]
    dsimp only
    rw [if_pos hwin]
  rw [h1]
  exact ⟨rfl, rfl, by rw [h2], by rw [h2]⟩

theorem C6_idempotent_within_ttl_witness :
    (fetchWeatherData (.success (some ⟨.num 5, .num 6, .num 7, .num 8, .num 9⟩))
        0 [] 1 2).result
      = some (parseWeather ⟨.num 5, .num 6, .num 7, .num 8, .num 9⟩ 0 1 2) ∧
    (fetchWeatherData (.success (some ⟨.num 5, .num 6, .num 7, .num 8, .num 9⟩))
        0 [] 1 2).requested = true ∧
    (fetchWeatherData .timeout 1
        (fetchWeatherData (.success (some ⟨.num 5, .num 6, .num 7, .num 8, .num 9⟩))
          0 [] 1 2).cache 1 2).result
      = (fetchWeatherData (.success (some ⟨.num 5, .num 6, .num 7, .num 8, .num 9⟩))
          0 [] 1 2).result ∧
    (fetchWeatherData .timeout 1
        (fetchWeatherData (.success (some ⟨.num 5, .num 6, .num 7, .num 8, .num 9⟩))
          0 [] 1 2).cache 1 2).requested = false :=
  C6_idempotent_within_ttl .timeout 0 1 [] 1 2 ⟨.num 5, .num 6, .num 7, .num 8, .num 9⟩
    (by decide) (by decide) (by decide)

/-- C7 counterexample: the claim says a malformed non-numeric field is set
to zero, but `current.temperature_2m || 0` keeps every truthy value: with
the non-numeric payload field `"bad"` the parsed observation carries the
string unchanged instead of zero. -/
theorem C7_counterexample_truthy_string_kept :
    ∃ w, (fetchWeatherData
        (.success (some ⟨.str "bad", .undef, .undef, .undef, .undef⟩)) 0 [] 0 0).result
      = some w ∧ w.temperature = .str "bad" ∧ w.temperature ≠ .num 0 :=
  ⟨⟨0, 0, .str "bad", .num 0, .num 0, .num 0, .num 0, 0⟩, by decide, by decide, by decide⟩

/-- C7 amended: on a successful upstream payload the parse always produces
an observation; every weather field whose payload value is missing or
otherwise falsy (undefined, null, false, zero, empty string) is set to
zero, while a truthy value — even a malformed non-numeric one — is passed
through unchanged. -/
theorem C7_amended_falsy_fields_zeroed (cur : CurrentPayload) (now : Nat)
    (cache : Cache) (lat lon : ℚ)
    (hmiss : singleRequested now (mapGet cache (posKeyC lat lon)) = true) :
    ∃ w, (fetchWeatherData (.success (some cur)) now cache lat lon).result = some w ∧
      (cur.temperature_2m.truthy = false → w.temperature = .num 0) ∧
      (cur.temperature_2m.truthy = true → w.temperature = cur.temperature_2m) ∧
      (cur.wind_speed_10m.truthy = false → w.windSpeed = .num 0) ∧
      (cur.wind_speed_10m.truthy = true → w.windSpeed = cur.wind_speed_10m) ∧
      (cur.wind_direction_10m.truthy = false → w.windDirection = .num 0) ∧
      (cur.wind_direction_10m.truthy = true → w.windDirection = cur.wind_direction_10m) ∧
      (cur.relative_humidity_2m.truthy = false → w.humidity = .num 0) ∧
      (cur.relative_humidity_2m.truthy = true → w.humidity = cur.relative_humidity_2m) ∧
      (cur.surface_pressure.truthy = false → w.pressure = .num 0) ∧
      (cur.surface_pressure.truthy = true → w.pressure = cur.surface_pressure) := by
  refine ⟨parseWeather cur now lat lon, ?_, ?_, ?_, ?_, ?_, ?_, ?_, ?_, ?_, ?_, ?_⟩
  · rw [fetchWeatherData_of_requested _ _ _ _ _ hmiss]
    rfl
  all_goals intro h
  all_goals simp [parseWeather, orZero, h]

theorem C7_amended_falsy_fields_zeroed_witness :
    ∃ w, (fetchWeatherData
        (.success (some ⟨.undef, .jnull, .num 0, .str "", .num 7⟩)) 3 [] 0 0).result
      = some w ∧
      ((JSVal.undef).truthy = false → w.temperature = .num 0) ∧
      ((JSVal.undef).truthy = true → w.temperature = .undef) ∧
      ((JSVal.jnull).truthy = false → w.windSpeed = .num 0) ∧
      ((JSVal.jnull).truthy = true → w.windSpeed = .jnull) ∧
      ((JSVal.num 0).truthy = false → w.windDirection = .num 0) ∧
      ((JSVal.num 0).truthy = true → w.windDirection = .num 0) ∧
      ((JSVal.str "").truthy = false → w.humidity = .num 0) ∧
      ((JSVal.str "").truthy = true → w.humidity = .str "") ∧
      ((JSVal.num 7).truthy = false → w.pressure = .num 0) ∧
      ((JSVal.num 7).truthy = true → w.pressure = .num 7) :=
  C7_amended_falsy_fields_zeroed ⟨.undef, .jnull, .num 0, .str "", .num 7⟩ 3 [] 0 0
    (by decide)

/-- C8: calling `fetchWeatherForPositions` with an empty position list
returns an empty result map and records no callback invocation. -/
theorem C8_empty_input (net : Position → UpstreamResponse) (now : Nat) (cache₀ : Cache)
    (M : Nat) :
    (fetchWeatherForPositions net now cache₀ [] M).finalMap = [] ∧
    (fetchWeatherForPositions net now cache₀ [] M).callbackPayloads = [] :=
  ⟨rfl, rfl⟩

/-- C9 counterexample: the claim says a returned observation's coordinates
are exactly the arguments of the call; but a call with coordinates
`(10.004, 20)` served from a cache entry created by an earlier call with
`(10.001, 20)` (same rounded key) returns the earlier call's latitude. -/
theorem C9_counterexample_cache_returns_old_coords :
    ∃ w, (fetchWeatherData .timeout 1
        (fetchWeatherData (.success (some ⟨.num 5, .num 0, .num 0, .num 0, .num 0⟩))
          0 [] (mkRat 10001 1000) 20).cache
        (mkRat 10004 1000) 20).result = some w ∧
      w.latitude ≠ mkRat 10004 1000 :=
  ⟨⟨mkRat 10001 1000, 20, .num 5, .num 0, .num 0, .num 0, .num 0, 0⟩, by decide, by decide⟩

/-- C9 amended: whenever `fetchWeatherData` actually issues an upstream
request (no live cache entry) and returns an observation, that
observation's latitude and longitude are exactly the call's arguments, not
values from the response body; a cache hit instead returns the stored
observation, whose coordinates are the arguments of the earlier call that
created the entry. -/
theorem C9_amended_upstream_coords_are_args (net : UpstreamResponse) (now : Nat)
    (cache : Cache) (lat lon : ℚ) (w : WeatherData)
    (hreq : (fetchWeatherData net now cache lat lon).requested = true)
    (h : (fetchWeatherData net now cache lat lon).result = some w) :
    w.latitude = lat ∧ w.longitude = lon := by
  rw [fetchWeatherData_requested] at hreq
  rw [fetchWeatherData_result,
    singleResult_eq_upstream _ _ _ _ _ hreq] at h
  exact upstreamResult_coords _ _ _ _ _ h

theorem C9_amended_upstream_coords_are_args_witness :
    (⟨3, 4, .num 5, .num 0, .num 0, .num 0, .num 0, 7⟩ : WeatherData).latitude = 3 ∧
    (⟨3, 4, .num 5, .num 0, .num 0, .num 0, .num 0, 7⟩ : WeatherData).longitude = 4 :=
  C9_amended_upstream_coords_are_args
    (.success (some ⟨.num 5, .num 0, .num 0, .num 0, .num 0⟩)) 7 [] 3 4
    ⟨3, 4, .num 5, .num 0, .num 0, .num 0, .num 0, 7⟩ (by decide) (by decide)

/-- C1: for any two positions of the input whose coordinates round to the
same 2-decimal key, one `fetchWeatherForPositions` call issues at most one
upstream request for that shared key, and whenever the lookup for the key
succeeds, both positions are represented in the returned map under the
shared key with the identical observation value. -/
theorem C1_shared_key_single_request (net : Position → UpstreamResponse) (now : Nat)
    (cache₀ : Cache) (positions : List Position) (M : Nat) (hM : M ≠ 0)
    (p1 p2 : Position) (h1 : p1 ∈ positions) (h2 : p2 ∈ positions)
    (hk : posKey p1 = posKey p2) :
    (fetchWeatherForPositions net now cache₀ positions M).requests.count (posKey p1)
        ≤ 1 ∧
    ∀ w, mapGet (fetchWeatherForPositions net now cache₀ positions M).weatherMap
          (posKey p1) = some w →
      mapGet (fetchWeatherForPositions net now cache₀ positions M).finalMap (posKey p1)
          = some w ∧
      mapGet (fetchWeatherForPositions net now cache₀ positions M).finalMap (posKey p2)
          = some w := by
  obtain ⟨hw, hq, _⟩ := run_spec net now cache₀ positions M hM
  constructor
  · rw [hq]
    calc (requestKeys now cache₀ (dedup positions)).count (posKey p1)
        ≤ ((dedup positions).map posKey).count (posKey p1) :=
          count_requestKeys_le now cache₀ (dedup positions) (posKey p1)
      _ ≤ 1 := count_le_one_of_nodup _ (dedup_keys_nodup positions) _
  · intro w hgw
    have hfin1 := run_finalMap_get net now cache₀ positions M hM (posKey p1)
    rw [← hk, hfin1, hgw]
    exact ⟨rfl, rfl⟩

theorem C1_shared_key_single_request_witness :
    (fetchWeatherForPositions (fun _ => .timeout) 0 [] [⟨1, 2⟩, ⟨1, 2⟩] 10).requests.count
        (posKey ⟨1, 2⟩) ≤ 1 ∧
    ∀ w, mapGet (fetchWeatherForPositions (fun _ => .timeout) 0 []
          [⟨1, 2⟩, ⟨1, 2⟩] 10).weatherMap (posKey ⟨1, 2⟩) = some w →
      mapGet (fetchWeatherForPositions (fun _ => .timeout) 0 []
          [⟨1, 2⟩, ⟨1, 2⟩] 10).finalMap (posKey ⟨1, 2⟩) = some w ∧
      mapGet (fetchWeatherForPositions (fun _ => .timeout) 0 []
          [⟨1, 2⟩, ⟨1, 2⟩] 10).finalMap (posKey ⟨1, 2⟩) = some w :=
  C1_shared_key_single_request (fun _ => .timeout) 0 [] [⟨1, 2⟩, ⟨1, 2⟩] 10
    (by decide) ⟨1, 2⟩ ⟨1, 2⟩ (by decide) (by decide) rfl

/-- C4: for a batch of `N` key-distinct positions and chunk size `M > 0`,
the per-chunk callback is recorded exactly `⌈N / M⌉` times, the union of
all callback payloads agrees pointwise with the final (entirely successful)
result map, and no key occurs in more than one payload. -/
theorem C4_callback_count_and_union (net : Position → UpstreamResponse) (now : Nat)
    (cache₀ : Cache) (positions : List Position) (M : Nat) (hM : M ≠ 0)
    (hu : (positions.map posKey).Nodup) :
    (fetchWeatherForPositions net now cache₀ positions M).callbackPayloads.length
        = (positions.length + M - 1) / M ∧
    (∀ k, mapGet
        (fetchWeatherForPositions net now cache₀ positions M).callbackPayloads.flatten k
      = mapGet (fetchWeatherForPositions net now cache₀ positions M).finalMap k) ∧
    ((fetchWeatherForPositions net now cache₀
        positions M).callbackPayloads.flatten.map Prod.fst).Nodup := by
  obtain ⟨hw, _, hc⟩ := run_spec net now cache₀ positions M hM
  have hded : dedup positions = positions := dedup_of_nodup positions hu
  have hchunknd : ∀ c ∈ chunksOf M (dedup positions), (c.map posKey).Nodup := by
    intro c hcmem
    have hsub : c.Sublist (chunksOf M (dedup positions)).flatten :=
      List.sublist_flatten_of_mem hcmem
    rw [chunksOf_flatten M hM] at hsub
    exact (dedup_keys_nodup positions).sublist (hsub.map posKey)
  have hpay : (fetchWeatherForPositions net now cache₀ positions M).callbackPayloads
      = (chunksOf M (dedup positions)).map (fun c => successes net now cache₀ c) := by
    rw [hc]
    apply List.map_congr_left
    intro c hcmem
    rw [mapSetAll_fresh [] _
      (successes_keys_nodup net now cache₀ c (hchunknd c hcmem)) (fun e _ => rfl)]
    simp
  have hflat : (fetchWeatherForPositions net now cache₀
      positions M).callbackPayloads.flatten = successes net now cache₀ positions := by
    rw [hpay, successes_flatten, chunksOf_flatten M hM, hded]
  refine ⟨?_, ?_, ?_⟩
  · rw [hpay, List.length_map, chunksOf_length M hM, hded]
  · intro k
    rw [hflat, run_finalMap_get net now cache₀ positions M hM k, hw, hded]
  · rw [hflat]
    exact successes_keys_nodup net now cache₀ positions hu

theorem C4_callback_count_and_union_witness :
    (fetchWeatherForPositions
        (fun _ => .success (some ⟨.num 5, .num 0, .num 0, .num 0, .num 0⟩)) 0 []
        [⟨1, 2⟩, ⟨3, 4⟩, ⟨5, 6⟩] 2).callbackPayloads.length = (3 + 2 - 1) / 2 ∧
    (∀ k, mapGet (fetchWeatherForPositions
        (fun _ => .success (some ⟨.num 5, .num 0, .num 0, .num 0, .num 0⟩)) 0 []
        [⟨1, 2⟩, ⟨3, 4⟩, ⟨5, 6⟩] 2).callbackPayloads.flatten k
      = mapGet (fetchWeatherForPositions
        (fun _ => .success (some ⟨.num 5, .num 0, .num 0, .num 0, .num 0⟩)) 0 []
        [⟨1, 2⟩, ⟨3, 4⟩, ⟨5, 6⟩] 2).finalMap k) ∧
    ((fetchWeatherForPositions
        (fun _ => .success (some ⟨.num 5, .num 0, .num 0, .num 0, .num 0⟩)) 0 []
        [⟨1, 2⟩, ⟨3, 4⟩, ⟨5, 6⟩] 2).callbackPayloads.flatten.map Prod.fst).Nodup :=
  C4_callback_count_and_union
    (fun _ => .success (some ⟨.num 5, .num 0, .num 0, .num 0, .num 0⟩)) 0 []
    [⟨1, 2⟩, ⟨3, 4⟩, ⟨5, 6⟩] 2 (by decide) (by decide)

/-- C5: a position whose every fetch attempt fails (timeout or non-success
HTTP status, with no live cache entry to fall back on) contributes no entry
under its key to the returned result map, and the failure aborts nothing:
the batch fetcher still runs every chunk (one recorded callback per chunk)
and returns a result map — there is no error case in its contract. -/
theorem C5_failures_contribute_nothing (net : Position → UpstreamResponse) (now : Nat)
    (cache₀ : Cache) (positions : List Position) (M : Nat) (k : Key) (hM : M ≠ 0)
    (hfail : ∀ p ∈ positions, posKey p = k →
      net p = .timeout ∨ ∃ code, net p = .status code)
    (hmiss : singleRequested now (mapGet cache₀ k) = true) :
    mapGet (fetchWeatherForPositions net now cache₀ positions M).finalMap k = none ∧
    (fetchWeatherForPositions net now cache₀ positions M).callbackPayloads.length
        = ((dedup positions).length + M - 1) / M := by
  obtain ⟨hw, _, hc⟩ := run_spec net now cache₀ positions M hM
  constructor
  · rw [run_finalMap_get net now cache₀ positions M hM k, hw]
    apply mapGet_eq_none_of_forall
    intro e he hek
    obtain ⟨p, hp, hkp, hout⟩ := mem_successes net now cache₀ _ _ he
    have hpk : posKey p = k := by rw [← hkp, hek]
    have hupstream : upstreamResult (net p) now p.latitude p.longitude = none := by
      rcases hfail p (dedup_mem positions p hp) hpk with h | ⟨code, h⟩ <;> rw [h] <;> rfl
    have : outcomeFor net now cache₀ p = none := by
      unfold outcomeFor
      rw [hpk, singleResult_eq_upstream _ _ _ _ _ hmiss]
      exact hupstream
    rw [this] at hout
    cases hout
  · rw [hc, List.length_map, chunksOf_length M hM]

theorem C5_failures_contribute_nothing_witness :
    mapGet (fetchWeatherForPositions (fun _ => .timeout) 0 []
        [⟨1, 2⟩] 10).finalMap (100, 200) = none ∧
    (fetchWeatherForPositions (fun _ => .timeout) 0 []
        [⟨1, 2⟩] 10).callbackPayloads.length = ((dedup [⟨1, 2⟩]).length + 10 - 1) / 10 :=
  C5_failures_contribute_nothing (fun _ => .timeout) 0 [] [⟨1, 2⟩] 10 (100, 200)
    (by decide) (fun p _ _ => Or.inl rfl) (by decide)

/-- C10: an upstream response with a success status whose JSON body lacks
the `current` object makes `fetchWeatherData` return absent without
creating or modifying any cache entry. -/
theorem C10_missing_current_absent_no_cache (now : Nat) (cache : Cache) (lat lon : ℚ)
    (hmiss : singleRequested now (mapGet cache (posKeyC lat lon)) = true) :
    (fetchWeatherData (.success none) now cache lat lon).result = none ∧
    (fetchWeatherData (.success none) now cache lat lon).cache = cache := by
  rw [fetchWeatherData_of_requested _ _ _ _ _ hmiss]
  exact ⟨rfl, rfl⟩

theorem C10_missing_current_absent_no_cache_witness :
    (fetchWeatherData (.success none) 5 [] 1 2).result = none ∧
    (fetchWeatherData (.success none) 5 [] 1 2).cache = [] :=
  C10_missing_current_absent_no_cache 5 [] 1 2 (by decide)

end WindBorne
